import Mathlib

/-!
# Verification development for the text-vid timing/synchronization engine

Shallow embedding of the core of the `text_vid` repository:

* `text_vid/tts/text_unit.py` — `TextTimestamp`, `Subtitle`, `TextUnit` and the
  subtitle segmentation algorithm `TextUnit.make_subtitles` with its helpers
  `__should_split_subtitle` and `__detect_tail_punctuation_count`;
* `text_vid/tts/duration.py` — `Duration.seconds_in_total`;
* `text_vid/video/video_generator.py` — `FrameSpanSubtitle`, the frame-span
  mapping `VideoGenerator.generate_frame_span_subtitles`, the total-frame
  computation `calc_total_frames`, the tick/seconds-to-frames conversions
  `duration_to_frames` / `raw_duration_to_frames`, and the subtitle layout
  `cv_generate_subtitle_text_frame` / `cv_generate_subtitle_text_frame_single`.

Modelling conventions: Python strings are `List Char` (slicing is `drop`/`take`);
Python floats are modelled as `ℚ` (the properties at stake are order/ceiling
arithmetic, exact over `ℚ`); Python ints are `ℤ` (or `ℕ` where the source only
ever holds lengths/indices); `math.ceil` is `Int.ceil`.  Mutating methods are
modelled as explicit state-passing functions on the object's relevant fields.
-/

namespace TextVid

/-! ## Data model (`text_unit.py`) -/

/-- `SUBTITLE_SPLITING_CHARS` from `text_unit.py`: the cue-boundary set. -/
def SUBTITLE_SPLITING_CHARS : List Char := ['，', '。', '！', '？', '；', '：']

/-- `PUNCTRATION_MARKS` from `text_unit.py`: the trailing-attachment set. -/
def PUNCTRATION_MARKS : List Char :=
  ['，', '。', '！', '？', '；', '：', '、', '—', '（', '）', '【', '】',
   '《', '》', '“', '”', '‘', '’']

/-- `TextTimestamp` from `text_unit.py`.  `start`/`duration` are in
100-nanosecond ticks (floats in the source, `ℚ` here). -/
structure TextTimestamp where
  text : List Char
  start : ℚ
  duration : ℚ
  start_text_index : ℤ
  text_length : ℕ
deriving DecidableEq

/-- `TextTimestamp.end` from `text_unit.py`. -/
def TextTimestamp.endTicks (t : TextTimestamp) : ℚ := t.start + t.duration

/-- `Subtitle` from `text_unit.py`: one cue. -/
structure Subtitle where
  text : List Char
  start : ℚ
  duration : ℚ
deriving DecidableEq

/-! ## Subtitle segmentation (`TextUnit.make_subtitles` and helpers) -/

/-- `TextUnit.__detect_tail_punctuation_count`: the length of the greedy run of
trailing-attachment punctuation starting at `tail_index` (the Python loop
breaks at the first non-punctuation character). -/
def detect_tail_punctuation_count (text : List Char) (tail_index : ℕ) : ℕ :=
  ((text.drop tail_index).takeWhile (fun c => decide (c ∈ PUNCTRATION_MARKS))).length

/-- `TextUnit.__should_split_subtitle`.  The Python body is: scan the trailing
punctuation run for a splitting character (the `if tail > 0` guard is
semantically redundant: scanning an empty run finds nothing), then
`return cur_index + timestamp.text_length >= len(self.text) or
self.text[cur_index + timestamp.text_length] in SUBTITLE_SPLITING_CHARS`.
The indexing in the second disjunct only happens when the first is false, so
the index is then in range; `getD` with the (non-splitting) `' '` default
reproduces that short-circuit exactly. -/
def should_split_subtitle (text : List Char) (cur_index : ℕ) (ts : TextTimestamp) :
    Bool :=
  let end_index := cur_index + ts.text_length
  let tail_count := detect_tail_punctuation_count text end_index
  ((text.drop end_index).take tail_count).any
      (fun c => decide (c ∈ SUBTITLE_SPLITING_CHARS))
    || decide (text.length ≤ end_index)
    || decide (text.getD end_index ' ' ∈ SUBTITLE_SPLITING_CHARS)

/-- The loop of `TextUnit.make_subtitles`, with the loop state made explicit:
`cur_index` is the character cursor, `(content, start, dur)` the accumulator of
the cue under construction.  Each iteration extends the word slice by the
trailing punctuation run, appends it to the accumulator, adds the timestamp's
duration, and flushes when `should_split_subtitle` holds.  Note the source has
no flush after the loop: a non-empty final accumulator is dropped. -/
def make_subtitles_aux (text : List Char) :
    ℕ → List Char → ℚ → ℚ → List TextTimestamp → List Subtitle
  | _, _, _, _, [] => []
  | cur_index, content, start, dur, ts :: rest =>
    let tail_count := detect_tail_punctuation_count text (cur_index + ts.text_length)
    let end_text_index := cur_index + ts.text_length + tail_count
    let t := (text.drop cur_index).take (ts.text_length + tail_count)
    let start' := if content.length = 0 then ts.start else start
    let content' := content ++ t
    let dur' := dur + ts.duration
    if should_split_subtitle text cur_index ts then
      ⟨content', start', dur'⟩ :: make_subtitles_aux text end_text_index [] 0 0 rest
    else
      make_subtitles_aux text end_text_index content' start' dur' rest

/-- `TextUnit.make_subtitles` as a pure function of the unit's text and
timestamp stream: the list of cues appended to `self.subtitles` by one call. -/
def make_subtitles (text : List Char) (tss : List TextTimestamp) : List Subtitle :=
  make_subtitles_aux text 0 [] 0 0 tss

/-- `TextUnit` from `text_unit.py` (the fields the segmenter touches;
`audio_file_path` is irrelevant to the claims). -/
structure TextUnit where
  text : List Char
  text_timestamps : List TextTimestamp
  subtitles : List Subtitle
deriving DecidableEq

/-- The method `TextUnit.make_subtitles` as a state transformer on the object:
the Python method appends each flushed cue to `self.subtitles` (it never clears
the field first). -/
def make_subtitles_method (u : TextUnit) : TextUnit :=
  { u with subtitles := u.subtitles ++ make_subtitles u.text u.text_timestamps }

/-! ## Instrumented segmenter

`make_subtitles_grouped_aux` is `make_subtitles_aux` with one extra piece of
bookkeeping: alongside the accumulator it carries the list of timestamps
consumed into the cue under construction, so each emitted cue is paired with
its constituent timestamps.  It also returns the timestamps left in the
accumulator when the loop ends (the content the source drops).  The erasure
theorem below ties it back to `make_subtitles`. -/

/-- Instrumented version of the `make_subtitles` loop: pairs each emitted cue
with the timestamps that built it, and returns the unflushed trailing group. -/
def make_subtitles_grouped_aux (text : List Char) :
    ℕ → List Char → ℚ → ℚ → List TextTimestamp → List TextTimestamp →
    List (Subtitle × List TextTimestamp) × List TextTimestamp
  | _, _, _, _, grp, [] => ([], grp)
  | cur_index, content, start, dur, grp, ts :: rest =>
    let tail_count := detect_tail_punctuation_count text (cur_index + ts.text_length)
    let end_text_index := cur_index + ts.text_length + tail_count
    let t := (text.drop cur_index).take (ts.text_length + tail_count)
    let start' := if content.length = 0 then ts.start else start
    let content' := content ++ t
    let dur' := dur + ts.duration
    if should_split_subtitle text cur_index ts then
      let r := make_subtitles_grouped_aux text end_text_index [] 0 0 [] rest
      ((⟨content', start', dur'⟩, grp ++ [ts]) :: r.1, r.2)
    else
      make_subtitles_grouped_aux text end_text_index content' start' dur' (grp ++ [ts]) rest

/-- Instrumented `make_subtitles`: cues paired with their constituent
timestamps, plus the trailing unflushed group. -/
def make_subtitles_grouped (text : List Char) (tss : List TextTimestamp) :
    List (Subtitle × List TextTimestamp) × List TextTimestamp :=
  make_subtitles_grouped_aux text 0 [] 0 0 [] tss

/-! ## Time conversion (`duration.py`, `video_generator.py`) -/

/-- `Duration.seconds_in_total` from `duration.py`: raw ticks to seconds. -/
def seconds_in_total (raw_duration : ℚ) : ℚ := raw_duration / 10 ^ 7

/-- `VideoGenerator.duration_to_frames`: `int(math.ceil(duration * fps))`.
Note the source raises no error for any `fps`; it always computes the ceiling. -/
def duration_to_frames (fps duration : ℚ) : ℤ := ⌈duration * fps⌉

/-- `VideoGenerator.raw_duration_to_frames`: convert raw ticks via
`Duration.seconds_in_total`, then to frames. -/
def raw_duration_to_frames (fps raw_duration : ℚ) : ℤ :=
  duration_to_frames fps (seconds_in_total raw_duration)

/-! ## Frame-span mapping (`video_generator.py`) -/

/-- `FrameSpanSubtitle` from `video_generator.py`. -/
structure FrameSpanSubtitle where
  subtitle : Subtitle
  start_frame : ℤ
  end_frame : ℤ
deriving DecidableEq

/-- One unit as seen by `VideoGenerator`: its segmented cues and the audio
duration returned by `unit.get_audio_duration()` (supplied by the audio
collaborator; an opaque per-unit value here). -/
structure VUnit where
  subtitles : List Subtitle
  audio_duration : ℚ
deriving DecidableEq

/-- The span built for cue `s` of a unit whose frame cursor is `cur`
(lines 165–167 of `video_generator.py`). -/
def mk_span (fps : ℚ) (cur : ℤ) (s : Subtitle) : FrameSpanSubtitle :=
  ⟨s, cur + raw_duration_to_frames fps s.start,
    cur + raw_duration_to_frames fps s.start + raw_duration_to_frames fps s.duration⟩

/-- The loop of `VideoGenerator.generate_frame_span_subtitles`, with the frame
cursor `cur_unit_start_frame` explicit; returns the emitted spans and the final
cursor value.  The source's `if len(unit.subtitles) > 0` guard is redundant
(iterating an empty list emits nothing); `i < len(units) - 1` is `rest ≠ []`. -/
def gfss_go (fps pause : ℚ) : ℤ → List VUnit → List FrameSpanSubtitle × ℤ
  | cur, [] => ([], cur)
  | cur, u :: rest =>
    let spans := u.subtitles.map (mk_span fps cur)
    let cur' := cur + duration_to_frames fps u.audio_duration +
      (if rest = [] then 0 else duration_to_frames fps pause)
    ((spans ++ (gfss_go fps pause cur' rest).1), (gfss_go fps pause cur' rest).2)

/-- `VideoGenerator.generate_frame_span_subtitles` as a pure function: the
spans appended to `self.frame_span_subtitles` by one call, and the final value
of the (local) cursor `cur_unit_start_frame`. -/
def generate_frame_span_subtitles (fps pause : ℚ) (units : List VUnit) :
    List FrameSpanSubtitle × ℤ :=
  gfss_go fps pause 0 units

/-- The method `generate_frame_span_subtitles` as a state transformer on
`self.frame_span_subtitles`: the Python method appends to the field (it never
clears it first). -/
def generate_frame_span_subtitles_method (fps pause : ℚ) (units : List VUnit)
    (frame_span_subtitles : List FrameSpanSubtitle) : List FrameSpanSubtitle :=
  frame_span_subtitles ++ (generate_frame_span_subtitles fps pause units).1

/-- `VideoGenerator.calc_total_frames` (lines 189–202): one `duration_to_frames`
per unit plus one per inter-unit pause. -/
def calc_total_frames (fps pause : ℚ) : List VUnit → ℤ
  | [] => 0
  | u :: rest =>
    duration_to_frames fps u.audio_duration +
      (if rest = [] then 0 else duration_to_frames fps pause) +
      calc_total_frames fps pause rest

/-! ## Subtitle layout (`cv_generate_subtitle_text_frame`) -/

/-- `BOTTOM_DISTANCE` from `video_generator.py`. -/
def BOTTOM_DISTANCE : ℤ := 60

/-- Python's `int(a / 2)` on an integer `a`: exact halving truncated toward
zero (both branches use division of a non-negative integer, so the result does
not depend on the ambient integer-division convention). -/
def int_half_toward_zero (a : ℤ) : ℤ := if 0 ≤ a then a / 2 else -(-a / 2)

/-- Placement of one rendered line: the `(x, y, text_width, text_height)`
quadruple returned by `cv_generate_subtitle_text_frame_single` (the drawn image
is fully determined by the line's text and this quadruple, so the quadruple
stands for the per-line image). -/
structure Placement where
  x : ℤ
  y : ℤ
  w : ℤ
  h : ℤ
deriving DecidableEq

/-- `VideoGenerator.cv_generate_subtitle_text_frame_single`, abstracted over the
font-metrics collaborator `measure` (the `draw.textbbox` width/height):
`x = int((width - text_width) / 2)`,
`y = height - text_height - BOTTOM_DISTANCE + y_offset`. -/
def cv_generate_subtitle_text_frame_single (measure : List Char → ℤ × ℤ)
    (width height : ℤ) (text : List Char) (y_offset : ℤ) : Placement :=
  ⟨int_half_toward_zero (width - (measure text).1),
   height - (measure text).2 - BOTTOM_DISTANCE + y_offset,
   (measure text).1, (measure text).2⟩

/-- Python `range(0, n, step)` for `step > 0`: the multiples of `step` below
`n` (the source never calls this with `step ≤ 0`, which Python rejects). -/
def py_range_step (n step : ℕ) : List ℕ :=
  (List.range n).filter (fun i => i % step == 0)

/-- The line-splitting loop of `cv_generate_subtitle_text_frame` (lines
257–262): consecutive chunks of at most `max_chars_per_line` characters, the
slice end explicitly clamped to `len(text)`. -/
def cv_lines (text : List Char) (max_chars_per_line : ℕ) : List (List Char) :=
  (py_range_step text.length max_chars_per_line).map fun i =>
    (text.drop i).take (min (i + max_chars_per_line) text.length - i)

/-- The per-line loop of `cv_generate_subtitle_text_frame` (lines 270–282),
state made explicit: `x`/`y` start as `None`, `width`/`height` as `0`; each
line is rendered with `y_offset = height + y_offset`, then
`if x is None or y is None: x, y = cur_x, cur_y`, then
`if cur_width > width: width, x = cur_width, cur_x`, then
`height += cur_height`, and the line's image is appended to `results`. -/
def cv_frame_go (measure : List Char → ℤ × ℤ) (width height y_offset : ℤ) :
    List (List Char) → Option ℤ → Option ℤ → ℤ → ℤ →
    List Placement × Option ℤ × Option ℤ × ℤ × ℤ
  | [], x, y, w, h => ([], x, y, w, h)
  | line :: rest, x, y, w, h =>
    let p := cv_generate_subtitle_text_frame_single measure width height line (h + y_offset)
    let x1 := if x.isNone || y.isNone then some p.x else x
    let y1 := if x.isNone || y.isNone then some p.y else y
    let w1 := if w < p.w then p.w else w
    let x2 := if w < p.w then some p.x else x1
    let r := cv_frame_go measure width height y_offset rest x2 y1 w1 (h + p.h)
    (p :: r.1, r.2)

/-- `VideoGenerator.cv_generate_subtitle_text_frame`: per-line placements (the
`results` images), then the returned `x, y, width, height`. -/
def cv_generate_subtitle_text_frame (measure : List Char → ℤ × ℤ)
    (width height : ℤ) (text : List Char) (y_offset : ℤ)
    (max_chars_per_line : ℕ) :
    List Placement × Option ℤ × Option ℤ × ℤ × ℤ :=
  cv_frame_go measure width height y_offset (cv_lines text max_chars_per_line)
    none none 0 0

/-! ## Spec-modelled comparison definitions -/

/-- Modelled from the spec (§7): the error taxonomy member relevant to the
frame-rate precondition. -/
inductive VideoError where
  | invalidFrameRate
deriving DecidableEq

/-- Modelled from the spec (§4.1, §7, Scenario D): `framesFor(seconds, fps) =
ceil(seconds * fps)`, with `fps ≤ 0` a fatal `InvalidFrameRate` error and no
frame computation performed.  Follows the spec's words, for comparison against
the source's `duration_to_frames`, which has no error path. -/
def framesForSpec (fps duration : ℚ) : Except VideoError ℤ :=
  if fps ≤ 0 then .error .invalidFrameRate else .ok ⌈duration * fps⌉

/-- Modelled from the spec (§4.2.2.e): the flush rule as the spec states it,
whose end-of-text test uses `wordEnd` AFTER extension by the trailing
punctuation run.  Follows the spec's words, for comparison against the
source's `should_split_subtitle`, whose end-of-text test uses the
pre-extension position. -/
def should_split_subtitle_spec (text : List Char) (cur_index : ℕ)
    (ts : TextTimestamp) : Bool :=
  let end_index := cur_index + ts.text_length
  let tail_count := detect_tail_punctuation_count text end_index
  let word_end := end_index + tail_count
  ((text.drop end_index).take tail_count).any
      (fun c => decide (c ∈ SUBTITLE_SPLITING_CHARS))
    || decide (text.length ≤ word_end)
    || decide (text.getD end_index ' ' ∈ SUBTITLE_SPLITING_CHARS)

/-! ## Helper lemmas: time conversion -/

theorem duration_to_frames_nonneg {fps d : ℚ} (hf : 0 ≤ fps) (hd : 0 ≤ d) :
    0 ≤ duration_to_frames fps d :=
  Int.ceil_nonneg (mul_nonneg hd hf)

theorem raw_duration_to_frames_nonneg {fps t : ℚ} (hf : 0 ≤ fps) (ht : 0 ≤ t) :
    0 ≤ raw_duration_to_frames fps t :=
  Int.ceil_nonneg (mul_nonneg (div_nonneg ht (by norm_num)) hf)

theorem raw_duration_to_frames_mono {fps a b : ℚ} (hf : 0 ≤ fps) (hab : a ≤ b) :
    raw_duration_to_frames fps a ≤ raw_duration_to_frames fps b := by
  unfold raw_duration_to_frames duration_to_frames seconds_in_total
  exact Int.ceil_le_ceil (mul_le_mul_of_nonneg_right (by gcongr) hf)

theorem raw_duration_to_frames_le_duration_to_frames {fps s audio : ℚ}
    (hf : 0 ≤ fps) (h : seconds_in_total s ≤ audio) :
    raw_duration_to_frames fps s ≤ duration_to_frames fps audio :=
  Int.ceil_le_ceil (mul_le_mul_of_nonneg_right h hf)

/-! ## Helper lemmas: frame-span mapping -/

/-- The final cursor of the mapping loop is the initial cursor plus the very
sum `calc_total_frames` recomputes. -/
theorem gfss_go_snd (fps pause : ℚ) :
    ∀ (units : List VUnit) (cur : ℤ),
      (gfss_go fps pause cur units).2 = cur + calc_total_frames fps pause units
  | [], cur => by simp [gfss_go, calc_total_frames]
  | u :: rest, cur => by
    simp only [gfss_go, calc_total_frames]
    rw [gfss_go_snd fps pause rest]
    ring

/-- Closed form of `calc_total_frames` for a non-empty unit list. -/
theorem calc_total_frames_closed_form (fps pause : ℚ) :
    ∀ (units : List VUnit), units ≠ [] →
      calc_total_frames fps pause units
        = (units.map (fun u => duration_to_frames fps u.audio_duration)).sum
          + duration_to_frames fps pause * ((units.length : ℤ) - 1)
  | [], h => absurd rfl h
  | [u], _ => by simp [calc_total_frames]
  | u :: v :: rest, _ => by
    have ih := calc_total_frames_closed_form fps pause (v :: rest) (by simp)
    simp only [calc_total_frames, if_neg (List.cons_ne_nil v rest)] at *
    rw [ih]
    simp only [List.map_cons, List.sum_cons, List.length_cons]
    push_cast
    ring

/-- Uniform translation of all emitted spans by a frame offset. -/
def shift_spans (d : ℤ) (l : List FrameSpanSubtitle) : List FrameSpanSubtitle :=
  l.map fun fs => ⟨fs.subtitle, d + fs.start_frame, d + fs.end_frame⟩

/-- Starting the mapping loop at cursor `d + cur` shifts every span and the
final cursor by `d`. -/
theorem gfss_go_shift (fps pause : ℚ) (d : ℤ) :
    ∀ (units : List VUnit) (cur : ℤ),
      gfss_go fps pause (d + cur) units
        = (shift_spans d (gfss_go fps pause cur units).1,
           d + (gfss_go fps pause cur units).2)
  | [], cur => by simp [gfss_go, shift_spans]
  | u :: rest, cur => by
    have ih := gfss_go_shift fps pause d rest
      (cur + duration_to_frames fps u.audio_duration +
        (if rest = [] then 0 else duration_to_frames fps pause))
    simp only [gfss_go]
    rw [show d + cur + duration_to_frames fps u.audio_duration +
          (if rest = [] then 0 else duration_to_frames fps pause)
        = d + (cur + duration_to_frames fps u.audio_duration +
          (if rest = [] then 0 else duration_to_frames fps pause)) by ring, ih]
    simp only [shift_spans, List.map_append, List.map_map, Prod.mk.injEq, and_true]
    congr 1
    refine List.map_congr_left fun s _ => ?_
    simp only [Function.comp_apply, mk_span, FrameSpanSubtitle.mk.injEq, true_and]
    exact ⟨by ring, by ring⟩

/-- Every span emitted with initial cursor `cur` starts at or after `cur`,
given non-negative frame rate, pause, audio durations and cue start ticks. -/
theorem gfss_go_start_frame_lb (fps pause : ℚ) (hf : 0 ≤ fps) (hp : 0 ≤ pause) :
    ∀ (units : List VUnit) (cur : ℤ),
      (∀ u ∈ units, 0 ≤ u.audio_duration) →
      (∀ u ∈ units, ∀ s ∈ u.subtitles, 0 ≤ s.start) →
      ∀ fs ∈ (gfss_go fps pause cur units).1, cur ≤ fs.start_frame
  | [], cur, _, _, fs, hfs => by simp [gfss_go] at hfs
  | u :: rest, cur, ha, hs, fs, hfs => by
    simp only [gfss_go, List.mem_append, List.mem_map] at hfs
    rcases hfs with ⟨s, hsmem, rfl⟩ | hmem
    · have h0 := raw_duration_to_frames_nonneg hf
        (hs u (List.mem_cons_self u rest) s hsmem)
      simp only [mk_span]
      omega
    · have hcur' :=
        gfss_go_start_frame_lb fps pause hf hp rest
          (cur + duration_to_frames fps u.audio_duration +
            (if rest = [] then 0 else duration_to_frames fps pause))
          (fun v hv => ha v (List.mem_cons_of_mem u hv))
          (fun v hv => hs v (List.mem_cons_of_mem u hv)) fs hmem
      have h1 : 0 ≤ duration_to_frames fps u.audio_duration :=
        duration_to_frames_nonneg hf (ha u (List.mem_cons_self u rest))
      have h2 : (0 : ℤ) ≤ if rest = [] then 0 else duration_to_frames fps pause := by
        split
        · exact le_refl 0
        · exact duration_to_frames_nonneg hf hp
      omega

/-- Monotone start frames: with a positive frame rate, a non-negative pause,
non-negative audio durations, per-unit cues sorted by start ticks, and every
cue starting within its unit's audio window, the emitted spans have
non-decreasing `start_frame`. -/
theorem gfss_go_chain (fps pause : ℚ) (hf : 0 < fps) (hp : 0 ≤ pause) :
    ∀ (units : List VUnit) (cur : ℤ),
      (∀ u ∈ units, 0 ≤ u.audio_duration) →
      (∀ u ∈ units, u.subtitles.Chain' (fun a b => a.start ≤ b.start)) →
      (∀ u ∈ units, ∀ s ∈ u.subtitles,
        0 ≤ s.start ∧ seconds_in_total s.start ≤ u.audio_duration) →
      (gfss_go fps pause cur units).1.Chain'
        (fun a b => a.start_frame ≤ b.start_frame)
  | [], cur, _, _, _ => by simp [gfss_go]
  | u :: rest, cur, ha, hsort, hb => by
    simp only [gfss_go]
    rw [List.chain'_append]
    refine ⟨?_, ?_, ?_⟩
    · rw [List.chain'_map]
      refine (hsort u (List.mem_cons_self u rest)).imp fun a b hab => ?_
      simp only [mk_span]
      have := raw_duration_to_frames_mono (a := a.start) (b := b.start) hf.le hab
      omega
    · exact gfss_go_chain fps pause hf hp rest _
        (fun v hv => ha v (List.mem_cons_of_mem u hv))
        (fun v hv => hsort v (List.mem_cons_of_mem u hv))
        (fun v hv => hb v (List.mem_cons_of_mem u hv))
    · intro x hx y hy
      rw [List.getLast?_map] at hx
      obtain ⟨s, hs, rfl⟩ : ∃ s, u.subtitles.getLast? = some s ∧ mk_span fps cur s = x := by
        cases h : u.subtitles.getLast? with
        | none => rw [h] at hx; cases hx
        | some s => rw [h] at hx; exact ⟨s, rfl, by cases hx; rfl⟩
      have hsmem : s ∈ u.subtitles := List.mem_of_mem_getLast? hs
      have hymem : y ∈ (gfss_go fps pause
          (cur + duration_to_frames fps u.audio_duration +
            (if rest = [] then 0 else duration_to_frames fps pause)) rest).1 :=
        List.mem_of_mem_head? hy
      have hylb := gfss_go_start_frame_lb fps pause hf.le hp rest _
        (fun v hv => ha v (List.mem_cons_of_mem u hv))
        (fun v hv s' hs' => (hb v (List.mem_cons_of_mem u hv) s' hs').1) y hymem
      have hle : raw_duration_to_frames fps s.start
          ≤ duration_to_frames fps u.audio_duration :=
        raw_duration_to_frames_le_duration_to_frames hf.le
          (hb u (List.mem_cons_self u rest) s hsmem).2
      have hpz : (0 : ℤ) ≤ if rest = [] then 0 else duration_to_frames fps pause := by
        split
        · exact le_refl 0
        · exact duration_to_frames_nonneg hf.le hp
      simp only [mk_span]
      omega

/-! ## Helper lemmas: instrumented segmenter -/

/-- Erasure: forgetting the groups recovers the source's `make_subtitles` loop. -/
theorem make_subtitles_grouped_aux_fst (text : List Char) :
    ∀ (tss : List TextTimestamp) (cur : ℕ) (content : List Char) (start dur : ℚ)
      (grp : List TextTimestamp),
      ((make_subtitles_grouped_aux text cur content start dur grp tss).1.map Prod.fst)
        = make_subtitles_aux text cur content start dur tss
  | [], _, _, _, _, _ => rfl
  | ts :: rest, cur, content, start, dur, grp => by
    simp only [make_subtitles_grouped_aux, make_subtitles_aux]
    split
    · simp only [List.map_cons]
      rw [make_subtitles_grouped_aux_fst text rest]
    · rw [make_subtitles_grouped_aux_fst text rest]

/-- Partition: the emitted groups, in order, followed by the trailing unflushed
group, are exactly the accumulated group plus the remaining timestamps. -/
theorem make_subtitles_grouped_aux_partition (text : List Char) :
    ∀ (tss : List TextTimestamp) (cur : ℕ) (content : List Char) (start dur : ℚ)
      (grp : List TextTimestamp),
      ((make_subtitles_grouped_aux text cur content start dur grp tss).1.map
          Prod.snd).flatten
        ++ (make_subtitles_grouped_aux text cur content start dur grp tss).2
      = grp ++ tss
  | [], _, _, _, _, grp => by simp [make_subtitles_grouped_aux]
  | ts :: rest, cur, content, start, dur, grp => by
    simp only [make_subtitles_grouped_aux]
    split
    · simp only [List.map_cons, List.flatten_cons, List.append_assoc]
      rw [make_subtitles_grouped_aux_partition text rest]
      simp
    · rw [make_subtitles_grouped_aux_partition text rest]
      simp

/-- Duration invariant: if the running duration is the sum of the accumulated
group's durations, every emitted cue's duration is the sum of its group's
durations. -/
theorem make_subtitles_grouped_aux_duration (text : List Char) :
    ∀ (tss : List TextTimestamp) (cur : ℕ) (content : List Char) (start dur : ℚ)
      (grp : List TextTimestamp),
      dur = (grp.map TextTimestamp.duration).sum →
      ∀ p ∈ (make_subtitles_grouped_aux text cur content start dur grp tss).1,
        p.1.duration = (p.2.map TextTimestamp.duration).sum
  | [], _, _, _, _, _, _, p, hp => by
    simp [make_subtitles_grouped_aux] at hp
  | ts :: rest, cur, content, start, dur, grp, hdur, p, hp => by
    simp only [make_subtitles_grouped_aux] at hp
    split at hp
    · rcases List.mem_cons.mp hp with rfl | hp'
      · simp [hdur]
      · exact make_subtitles_grouped_aux_duration text rest _ [] 0 0 [] (by simp) p hp'
    · exact make_subtitles_grouped_aux_duration text rest _ _ _ _ _ (by simp [hdur]) p hp

/-! ## Helper lemmas: layout -/

/-- Closed form for the per-line placements of the layout loop: each line is
rendered via `cv_generate_subtitle_text_frame_single` at the running height
accumulated from the measured heights of the lines before it. -/
def stack_placements (measure : List Char → ℤ × ℤ) (width height y_offset : ℤ) :
    List (List Char) → ℤ → List Placement
  | [], _ => []
  | line :: rest, h =>
    cv_generate_subtitle_text_frame_single measure width height line (h + y_offset)
      :: stack_placements measure width height y_offset rest (h + (measure line).2)

/-- The placements produced by the layout loop depend only on the running
height, and equal `stack_placements`. -/
theorem cv_frame_go_fst (measure : List Char → ℤ × ℤ) (width height y_offset : ℤ) :
    ∀ (lines : List (List Char)) (x y : Option ℤ) (w h : ℤ),
      (cv_frame_go measure width height y_offset lines x y w h).1
        = stack_placements measure width height y_offset lines h
  | [], _, _, _, _ => rfl
  | line :: rest, x, y, w, h => by
    simp only [cv_frame_go, stack_placements]
    rw [cv_frame_go_fst measure width height y_offset rest]
    rfl

/-- The first stacked line's bottom edge sits `BOTTOM_DISTANCE` above the frame
bottom, offset by `y_offset` and the initial running height. -/
theorem stack_placements_head (measure : List Char → ℤ × ℤ)
    (width height y_offset : ℤ) (lines : List (List Char)) (h0 : ℤ) (p : Placement)
    (hp : (stack_placements measure width height y_offset lines h0).head? = some p) :
    p.y + p.h = height - BOTTOM_DISTANCE + y_offset + h0 := by
  cases lines with
  | nil => cases hp
  | cons line rest =>
    simp only [stack_placements, List.head?_cons, Option.some.injEq] at hp
    subst hp
    simp only [cv_generate_subtitle_text_frame_single]
    ring

/-- Consecutive stacked lines: each later line's bottom edge lies exactly the
previous line's measured height below the previous line's bottom edge. -/
theorem stack_placements_chain (measure : List Char → ℤ × ℤ)
    (width height y_offset : ℤ) :
    ∀ (lines : List (List Char)) (h0 : ℤ),
      (stack_placements measure width height y_offset lines h0).Chain'
        (fun a b => b.y + b.h = a.y + a.h + a.h)
  | [], _ => List.chain'_nil
  | line :: rest, h0 => by
    rw [stack_placements, List.chain'_cons']
    refine ⟨fun b hb => ?_, stack_placements_chain measure width height y_offset rest _⟩
    have hbe := stack_placements_head measure width height y_offset rest _ b hb
    simp only [cv_generate_subtitle_text_frame_single] at *
    ring_nf
    ring_nf at hbe
    omega

/-- Every stacked line is horizontally centered from its own measured width. -/
theorem stack_placements_x (measure : List Char → ℤ × ℤ)
    (width height y_offset : ℤ) :
    ∀ (lines : List (List Char)) (h0 : ℤ),
      ∀ p ∈ stack_placements measure width height y_offset lines h0,
        p.x = int_half_toward_zero (width - p.w)
  | [], _, p, hp => by simp [stack_placements] at hp
  | line :: rest, h0, p, hp => by
    rcases List.mem_cons.mp hp with rfl | hp'
    · rfl
    · exact stack_placements_x measure width height y_offset rest _ p hp'

/-- Pairwise non-overlap of frame spans: any two emitted spans have disjoint
half-open frame ranges (the renderer shows a cue on frames
`[start_frame, end_frame)`). -/
def spans_nonoverlapping (l : List FrameSpanSubtitle) : Prop :=
  l.Pairwise (fun a b => a.end_frame ≤ b.start_frame ∨ b.end_frame ≤ a.start_frame)

/-! ## Claims -/

/-- C1: the source's `make_subtitles` loop ends without a final flush, so a
unit whose last word is not followed by splitting punctuation silently drops
the trailing accumulated content: on text `你好吗` with one timestamp covering
`你好`, the code emits zero cues and the unflushed trailing group holding that
timestamp is discarded — contradicting the claim (and the spec's mandated
final flush). -/
theorem C1_trailing_cue_dropped :
    make_subtitles ['你', '好', '吗'] [⟨['你', '好'], 0, 5, 0, 2⟩] = [] ∧
    (make_subtitles_grouped ['你', '好', '吗'] [⟨['你', '好'], 0, 5, 0, 2⟩]).2
      = [⟨['你', '好'], 0, 5, 0, 2⟩] := by
  decide

/-- C2 counterexample: with cues in non-decreasing start-tick order, `fps > 0`
and `pause ≥ 0`, the mapped spans can overlap (first input: spans `[0,30)` and
`[3,6)`), a span can run past its unit's allotted range (the same first input:
a span ends at frame 30 while the whole timeline is 15 frames), and without a
bound tying cue start ticks to the unit's audio duration even global
`start_frame` order can fail (second input) — refuting the claim as stated. -/
theorem C2_counterexample :
    ((0 : ℚ) < 30 ∧ (0 : ℚ) ≤ 0 ∧
      (∀ u ∈ [(⟨[⟨['a'], 0, 10 ^ 7⟩, ⟨['b'], 10 ^ 6, 10 ^ 6⟩], 1/2⟩ : VUnit)],
        u.subtitles.Chain' (fun a b => a.start ≤ b.start)) ∧
      ¬ spans_nonoverlapping
        (generate_frame_span_subtitles 30 0
          [⟨[⟨['a'], 0, 10 ^ 7⟩, ⟨['b'], 10 ^ 6, 10 ^ 6⟩], 1/2⟩]).1 ∧
      (generate_frame_span_subtitles 30 0
          [⟨[⟨['a'], 0, 10 ^ 7⟩, ⟨['b'], 10 ^ 6, 10 ^ 6⟩], 1/2⟩]).1.head?.map
          FrameSpanSubtitle.end_frame = some 30 ∧
      calc_total_frames 30 0
          [(⟨[⟨['a'], 0, 10 ^ 7⟩, ⟨['b'], 10 ^ 6, 10 ^ 6⟩], 1/2⟩ : VUnit)] = 15) ∧
    ((∀ u ∈ [(⟨[⟨['a'], 10 ^ 7, 10 ^ 6⟩], 0⟩ : VUnit), ⟨[⟨['b'], 0, 10 ^ 6⟩], 1⟩],
        u.subtitles.Chain' (fun a b => a.start ≤ b.start)) ∧
      ¬ (generate_frame_span_subtitles 30 0
          [(⟨[⟨['a'], 10 ^ 7, 10 ^ 6⟩], 0⟩ : VUnit), ⟨[⟨['b'], 0, 10 ^ 6⟩], 1⟩]).1.Chain'
          (fun a b => a.start_frame ≤ b.start_frame)) := by
  have hA : (generate_frame_span_subtitles 30 0
      [(⟨[⟨['a'], 0, 10 ^ 7⟩, ⟨['b'], 10 ^ 6, 10 ^ 6⟩], 1/2⟩ : VUnit)]).1
      = [⟨⟨['a'], 0, 10 ^ 7⟩, 0, 30⟩, ⟨⟨['b'], 10 ^ 6, 10 ^ 6⟩, 3, 6⟩] := by
    simp only [generate_frame_span_subtitles, gfss_go, mk_span,
      raw_duration_to_frames, duration_to_frames, seconds_in_total,
      List.map_cons, List.map_nil, List.append_nil, List.nil_append]
    norm_num
  have hB : (generate_frame_span_subtitles 30 0
      [(⟨[⟨['a'], 10 ^ 7, 10 ^ 6⟩], 0⟩ : VUnit), ⟨[⟨['b'], 0, 10 ^ 6⟩], 1⟩]).1
      = [⟨⟨['a'], 10 ^ 7, 10 ^ 6⟩, 30, 33⟩, ⟨⟨['b'], 0, 10 ^ 6⟩, 0, 3⟩] := by
    simp only [generate_frame_span_subtitles, gfss_go, mk_span,
      raw_duration_to_frames, duration_to_frames, seconds_in_total,
      List.map_cons, List.map_nil, List.append_nil, List.nil_append]
    norm_num
  refine ⟨⟨by norm_num, le_refl 0, ?_, ?_, ?_, ?_⟩, ?_, ?_⟩
  · intro u hu
    fin_cases hu
    simp only [List.chain'_cons, List.chain'_singleton, and_true]
    norm_num
  · rw [hA]
    simp [spans_nonoverlapping, List.pairwise_cons]
  · rw [hA]
    rfl
  · simp only [calc_total_frames, duration_to_frames]
    norm_num
  · intro u hu
    fin_cases hu <;> simp [List.chain'_singleton]
  · rw [hB]
    simp [List.chain'_cons, List.chain'_singleton]

/-- C2 (amended): with `fps > 0`, `pause ≥ 0`, non-negative audio durations,
per-unit cues in non-decreasing start-tick order, and every cue's start ticks
non-negative and within its unit's audio duration, the mapped spans are in
non-decreasing `start_frame` order across the full sequence; the no-overlap
and per-unit containment invariants do not hold for the source. -/
theorem C2_start_frames_monotone (fps pause : ℚ) (units : List VUnit)
    (hf : 0 < fps) (hp : 0 ≤ pause)
    (ha : ∀ u ∈ units, 0 ≤ u.audio_duration)
    (hsort : ∀ u ∈ units, u.subtitles.Chain' (fun a b => a.start ≤ b.start))
    (hb : ∀ u ∈ units, ∀ s ∈ u.subtitles,
      0 ≤ s.start ∧ seconds_in_total s.start ≤ u.audio_duration) :
    (generate_frame_span_subtitles fps pause units).1.Chain'
      (fun a b => a.start_frame ≤ b.start_frame) :=
  gfss_go_chain fps pause hf hp units 0 ha hsort hb

/-- C2 witness: the amended monotonicity theorem applied at a concrete
two-unit input satisfying all its hypotheses. -/
theorem C2_start_frames_monotone_witness :
    ((0 : ℚ) < 30 ∧ (0 : ℚ) ≤ 1/4 ∧
      (∀ u ∈ [(⟨[⟨['a'], 0, 10 ^ 6⟩, ⟨['b'], 2 * 10 ^ 6, 10 ^ 6⟩], 2⟩ : VUnit),
          ⟨[⟨['c'], 0, 10 ^ 6⟩], 3⟩], 0 ≤ u.audio_duration) ∧
      (∀ u ∈ [(⟨[⟨['a'], 0, 10 ^ 6⟩, ⟨['b'], 2 * 10 ^ 6, 10 ^ 6⟩], 2⟩ : VUnit),
          ⟨[⟨['c'], 0, 10 ^ 6⟩], 3⟩],
        u.subtitles.Chain' (fun a b => a.start ≤ b.start)) ∧
      (∀ u ∈ [(⟨[⟨['a'], 0, 10 ^ 6⟩, ⟨['b'], 2 * 10 ^ 6, 10 ^ 6⟩], 2⟩ : VUnit),
          ⟨[⟨['c'], 0, 10 ^ 6⟩], 3⟩], ∀ s ∈ u.subtitles,
        0 ≤ s.start ∧ seconds_in_total s.start ≤ u.audio_duration)) ∧
    (generate_frame_span_subtitles 30 (1/4)
        [(⟨[⟨['a'], 0, 10 ^ 6⟩, ⟨['b'], 2 * 10 ^ 6, 10 ^ 6⟩], 2⟩ : VUnit),
          ⟨[⟨['c'], 0, 10 ^ 6⟩], 3⟩]).1.Chain'
      (fun a b => a.start_frame ≤ b.start_frame) :=
  ⟨⟨by norm_num, by norm_num,
    by intro u hu; fin_cases hu <;> norm_num,
    by
      intro u hu
      fin_cases hu
      · simp only [List.chain'_cons, List.chain'_singleton, and_true]
        norm_num
      · simp [List.chain'_singleton],
    by
      intro u hu s hs
      fin_cases hu <;> fin_cases hs <;> constructor <;>
        norm_num [seconds_in_total]⟩,
    C2_start_frames_monotone 30 (1/4)
      [(⟨[⟨['a'], 0, 10 ^ 6⟩, ⟨['b'], 2 * 10 ^ 6, 10 ^ 6⟩], 2⟩ : VUnit),
        ⟨[⟨['c'], 0, 10 ^ 6⟩], 3⟩]
      (by norm_num) (by norm_num)
      (by intro u hu; fin_cases hu <;> norm_num)
      (by
        intro u hu
        fin_cases hu
        · simp only [List.chain'_cons, List.chain'_singleton, and_true]
          norm_num
        · simp [List.chain'_singleton])
      (by
        intro u hu s hs
        fin_cases hu <;> fin_cases hs <;> constructor <;>
          norm_num [seconds_in_total])⟩

/-- C3: for a non-empty unit list the final cursor accumulated by
`generate_frame_span_subtitles` equals `calc_total_frames`, and
`calc_total_frames` equals the direct recomputation
`Σ framesFor(audio_i) + framesFor(pause) × (N − 1)`, exactly as integers. -/
theorem C3_total_frames_identity (fps pause : ℚ) (units : List VUnit)
    (h : units ≠ []) :
    (generate_frame_span_subtitles fps pause units).2
        = calc_total_frames fps pause units ∧
      calc_total_frames fps pause units
        = (units.map (fun u => duration_to_frames fps u.audio_duration)).sum
          + duration_to_frames fps pause * ((units.length : ℤ) - 1) := by
  refine ⟨?_, calc_total_frames_closed_form fps pause units h⟩
  simpa [generate_frame_span_subtitles] using gfss_go_snd fps pause units 0

/-- C3 witness: the frame-count identity at Scenario B's input
(`audio = 2 s` and `3 s`, `pause = 0.25 s`, `fps = 30`; total 158 frames). -/
theorem C3_total_frames_identity_witness :
    ([(⟨[], 2⟩ : VUnit), ⟨[], 3⟩] ≠ []) ∧
    ((generate_frame_span_subtitles 30 (1/4) [(⟨[], 2⟩ : VUnit), ⟨[], 3⟩]).2
        = calc_total_frames 30 (1/4) [(⟨[], 2⟩ : VUnit), ⟨[], 3⟩] ∧
      calc_total_frames 30 (1/4) [(⟨[], 2⟩ : VUnit), ⟨[], 3⟩]
        = ([(⟨[], 2⟩ : VUnit), ⟨[], 3⟩].map
            (fun u => duration_to_frames 30 u.audio_duration)).sum
          + duration_to_frames 30 (1/4)
            * (([(⟨[], 2⟩ : VUnit), ⟨[], 3⟩].length : ℤ) - 1)) :=
  ⟨by decide, C3_total_frames_identity 30 (1/4) [⟨[], 2⟩, ⟨[], 3⟩] (by decide)⟩

/-- C4 counterexample: on text `你、、` with a one-character word, the trailing
run `、、` (attachment marks, none splitting) extends `wordEnd` to the end of
the text, so the claim's rule (ii) — extended `wordEnd ≥ len(sourceText)` —
demands a flush, but the source tests the PRE-extension position
(`cursor + charLength = 1 < 3`) and does not flush. -/
theorem C4_counterexample :
    should_split_subtitle ['你', '、', '、'] 0 ⟨['你'], 0, 0, 0, 1⟩ = false ∧
    should_split_subtitle_spec ['你', '、', '、'] 0 ⟨['你'], 0, 0, 0, 1⟩ = true := by
  decide

/-- C4 (amended): the source flushes exactly when (i) some character of the
greedy trailing-attachment run belongs to the splitting set, or (ii) the
word's end position BEFORE extension, `cursor + charLength`, is already at or
past the end of the source text, or (iii) the single character at that
pre-extension position is itself in the splitting set. -/
theorem C4_flush_rule (text : List Char) (cur : ℕ) (ts : TextTimestamp) :
    should_split_subtitle text cur ts = true ↔
      (∃ c ∈ (text.drop (cur + ts.text_length)).take
          (detect_tail_punctuation_count text (cur + ts.text_length)),
        c ∈ SUBTITLE_SPLITING_CHARS)
      ∨ text.length ≤ cur + ts.text_length
      ∨ ∃ h : cur + ts.text_length < text.length,
          text.get ⟨cur + ts.text_length, h⟩ ∈ SUBTITLE_SPLITING_CHARS := by
  simp only [should_split_subtitle, Bool.or_eq_true, List.any_eq_true,
    decide_eq_true_eq]
  constructor
  · rintro ((h1 | h2) | h3)
    · exact Or.inl h1
    · exact Or.inr (Or.inl h2)
    · by_cases hlt : cur + ts.text_length < text.length
      · refine Or.inr (Or.inr ⟨hlt, ?_⟩)
        rw [List.getD_eq_getElem text ' ' hlt] at h3
        exact h3
      · exact Or.inr (Or.inl (le_of_not_lt hlt))
  · rintro (h1 | h2 | ⟨hlt, h3⟩)
    · exact Or.inl (Or.inl h1)
    · exact Or.inl (Or.inr h2)
    · refine Or.inr ?_
      rw [List.getD_eq_getElem text ' ' hlt]
      exact h3

/-- C4 witness: the amended flush rule instantiated at a concrete word whose
trailing run is the splitting mark `。`. -/
theorem C4_flush_rule_witness :
    should_split_subtitle ['你', '。'] 0 ⟨['你'], 0, 0, 0, 1⟩ = true ↔
      (∃ c ∈ ((['你', '。'] : List Char).drop 1).take
          (detect_tail_punctuation_count ['你', '。'] 1),
        c ∈ SUBTITLE_SPLITING_CHARS)
      ∨ (['你', '。'] : List Char).length ≤ 1
      ∨ ∃ h : 1 < (['你', '。'] : List Char).length,
          (['你', '。'] : List Char).get ⟨1, h⟩ ∈ SUBTITLE_SPLITING_CHARS :=
  C4_flush_rule ['你', '。'] 0 ⟨['你'], 0, 0, 0, 1⟩

/-- C5: every cue emitted by `make_subtitles` has `duration` equal to the sum
of its constituent timestamps' durations (instrumented run: erasing the groups
gives exactly `make_subtitles`, the groups followed by the unflushed tail
partition the timestamp stream, and each cue's duration is its group's
duration sum — gaps between words never enter). -/
theorem C5_cue_duration_is_group_sum (text : List Char) (tss : List TextTimestamp) :
    ((make_subtitles_grouped text tss).1.map Prod.fst) = make_subtitles text tss ∧
    ((make_subtitles_grouped text tss).1.map Prod.snd).flatten
        ++ (make_subtitles_grouped text tss).2 = tss ∧
    ∀ p ∈ (make_subtitles_grouped text tss).1,
      p.1.duration = (p.2.map TextTimestamp.duration).sum :=
  ⟨make_subtitles_grouped_aux_fst text tss 0 [] 0 0 [],
   by simpa using make_subtitles_grouped_aux_partition text tss 0 [] 0 0 [],
   make_subtitles_grouped_aux_duration text tss 0 [] 0 0 [] (by simp)⟩

/-- C5 witness: the duration-sum theorem instantiated at Scenario A's input
(one timestamp covering `你` with the trailing mark `。`). -/
theorem C5_cue_duration_is_group_sum_witness :
    ((make_subtitles_grouped ['你', '。'] [⟨['你'], 0, 5, 0, 1⟩]).1.map Prod.fst)
        = make_subtitles ['你', '。'] [⟨['你'], 0, 5, 0, 1⟩] ∧
    ((make_subtitles_grouped ['你', '。'] [⟨['你'], 0, 5, 0, 1⟩]).1.map
        Prod.snd).flatten
        ++ (make_subtitles_grouped ['你', '。'] [⟨['你'], 0, 5, 0, 1⟩]).2
      = [⟨['你'], 0, 5, 0, 1⟩] ∧
    ∀ p ∈ (make_subtitles_grouped ['你', '。'] [⟨['你'], 0, 5, 0, 1⟩]).1,
      p.1.duration = (p.2.map TextTimestamp.duration).sum :=
  C5_cue_duration_is_group_sum ['你', '。'] [⟨['你'], 0, 5, 0, 1⟩]

/-- C6 counterexample: both methods append to instance state, so a second
invocation on the same object does not reproduce the first invocation's
result: the cue list and the frame-span list are duplicated, not equal. -/
theorem C6_counterexample :
    (make_subtitles_method (make_subtitles_method
        ⟨['你', '。'], [⟨['你'], 0, 5, 0, 1⟩], []⟩)).subtitles
      ≠ (make_subtitles_method ⟨['你', '。'], [⟨['你'], 0, 5, 0, 1⟩], []⟩).subtitles ∧
    generate_frame_span_subtitles_method 30 0 [⟨[⟨['你', '。'], 0, 5⟩], 1⟩]
        (generate_frame_span_subtitles_method 30 0 [⟨[⟨['你', '。'], 0, 5⟩], 1⟩] [])
      ≠ generate_frame_span_subtitles_method 30 0 [⟨[⟨['你', '。'], 0, 5⟩], 1⟩] [] := by
  constructor
  · intro h
    have hl := congrArg List.length h
    revert hl
    decide
  · intro h
    have hl := congrArg List.length h
    revert hl
    decide

/-- C6 (amended): the underlying computations are pure functions of their
inputs (`make_subtitles`, `generate_frame_span_subtitles`), so identical input
yields identical computed output; but both methods append to instance state,
so a second invocation yields the first result followed by a second identical
copy, not a byte-identical list. -/
theorem C6_second_run_appends (u : TextUnit) (fps pause : ℚ) (units : List VUnit)
    (st : List FrameSpanSubtitle) :
    (make_subtitles_method u).subtitles
        = u.subtitles ++ make_subtitles u.text u.text_timestamps ∧
    (make_subtitles_method (make_subtitles_method u)).subtitles
        = u.subtitles ++ make_subtitles u.text u.text_timestamps
            ++ make_subtitles u.text u.text_timestamps ∧
    generate_frame_span_subtitles_method fps pause units st
        = st ++ (generate_frame_span_subtitles fps pause units).1 ∧
    generate_frame_span_subtitles_method fps pause units
        (generate_frame_span_subtitles_method fps pause units st)
        = st ++ (generate_frame_span_subtitles fps pause units).1
            ++ (generate_frame_span_subtitles fps pause units).1 := by
  simp [make_subtitles_method, generate_frame_span_subtitles_method,
    List.append_assoc]

/-- C7 counterexample: at `fps = 0` the source's `duration_to_frames` raises
nothing and computes `ceil(1 * 0) = 0`, while the spec-modelled conversion
fails with `InvalidFrameRate` — refuting the claim that the code fails for
`fps ≤ 0`. -/
theorem C7_counterexample :
    duration_to_frames 0 1 = 0 ∧
    framesForSpec 0 1 = .error .invalidFrameRate :=
  ⟨by norm_num [duration_to_frames], by simp [framesForSpec]⟩

/-- C7 (amended): for `fps > 0` the source returns exactly
`ceil(duration * fps)`, agreeing with the spec-modelled conversion; for
`fps ≤ 0` the source performs the same ceiling computation instead of failing
(yielding a non-positive frame count for non-negative durations), while the
spec-modelled conversion fails with `InvalidFrameRate`. -/
theorem C7_frames_conversion (fps duration : ℚ) :
    (0 < fps → framesForSpec fps duration
        = .ok (duration_to_frames fps duration)) ∧
    (fps ≤ 0 → framesForSpec fps duration = .error .invalidFrameRate ∧
      (0 ≤ duration → duration_to_frames fps duration ≤ 0)) := by
  constructor
  · intro hf
    rw [framesForSpec, if_neg (not_le.mpr hf)]
    rfl
  · intro hf
    refine ⟨by rw [framesForSpec, if_pos hf], fun hd => ?_⟩
    exact Int.ceil_le.mpr
      (by push_cast; exact mul_nonpos_iff.mpr (Or.inl ⟨hd, hf⟩))

/-- C7 witness: both branches of the amended conversion theorem at concrete
inputs (`fps = 30` and the failing configuration `fps = 0`). -/
theorem C7_frames_conversion_witness :
    ((0 : ℚ) < 30 ∧ framesForSpec 30 1 = .ok (duration_to_frames 30 1)) ∧
    ((0 : ℚ) ≤ 0 ∧ framesForSpec 0 1 = .error .invalidFrameRate ∧
      ((0 : ℚ) ≤ 1 → duration_to_frames 0 1 ≤ 0)) :=
  ⟨⟨by norm_num, (C7_frames_conversion 30 1).1 (by norm_num)⟩,
   ⟨le_refl 0, (C7_frames_conversion 0 1).2 (le_refl 0)⟩⟩

/-- C8 counterexample: with 35 characters at 30 per line (two lines of
measured height 20 on a 1280×720 frame), the LAST line's bottom edge sits at
`720 − 60 + 20 = 680`, not `bottomMargin` above the frame bottom (`660`): the
source anchors the FIRST line at the margin and stacks later lines downward,
refuting the claimed bottom-up stacking. -/
theorem C8_counterexample :
    ((cv_generate_subtitle_text_frame (fun l => ((10 * l.length : ℤ), 20))
        1280 720 (List.replicate 35 'a') 0 30).1).getLast?.map
        (fun p => p.y + p.h) = some 680 ∧
    (680 : ℤ) ≠ 720 - BOTTOM_DISTANCE := by
  decide

/-- C8 (amended): the layout stacks lines top-down: the FIRST chunk line's
bottom edge sits exactly `BOTTOM_DISTANCE` pixels above the frame's bottom
edge (offset by `y_offset`), each subsequent line's bottom edge lies exactly
the preceding line's measured height below the preceding line's bottom edge
(so later lines extend downward, possibly past the frame), and each line is
horizontally centered independently from its own measured width. -/
theorem C8_line_stacking (measure : List Char → ℤ × ℤ) (width height : ℤ)
    (text : List Char) (y_offset : ℤ) (max_chars_per_line : ℕ)
    (_hm : 0 < max_chars_per_line) :
    (∀ p, ((cv_generate_subtitle_text_frame measure width height text y_offset
        max_chars_per_line).1).head? = some p →
      p.y + p.h = height - BOTTOM_DISTANCE + y_offset) ∧
    ((cv_generate_subtitle_text_frame measure width height text y_offset
        max_chars_per_line).1).Chain' (fun a b => b.y + b.h = a.y + a.h + a.h) ∧
    (∀ p ∈ (cv_generate_subtitle_text_frame measure width height text y_offset
        max_chars_per_line).1, p.x = int_half_toward_zero (width - p.w)) := by
  rw [cv_generate_subtitle_text_frame, cv_frame_go_fst]
  refine ⟨fun p hp => ?_,
    stack_placements_chain measure width height y_offset _ 0,
    stack_placements_x measure width height y_offset _ 0⟩
  have h := stack_placements_head measure width height y_offset _ 0 p hp
  omega

/-- C8 witness: the amended stacking theorem at a concrete measurement
(10 px per character, 20 px line height) on a 1280×720 frame with a 35-character
text at 30 characters per line. -/
theorem C8_line_stacking_witness :
    0 < 30 ∧
    ((∀ p, ((cv_generate_subtitle_text_frame (fun l => ((10 * l.length : ℤ), 20))
        1280 720 (List.replicate 35 'a') 0 30).1).head? = some p →
      p.y + p.h = 720 - BOTTOM_DISTANCE + 0) ∧
    ((cv_generate_subtitle_text_frame (fun l => ((10 * l.length : ℤ), 20))
        1280 720 (List.replicate 35 'a') 0 30).1).Chain'
      (fun a b => b.y + b.h = a.y + a.h + a.h) ∧
    (∀ p ∈ (cv_generate_subtitle_text_frame (fun l => ((10 * l.length : ℤ), 20))
        1280 720 (List.replicate 35 'a') 0 30).1,
      p.x = int_half_toward_zero (1280 - p.w))) :=
  ⟨by decide, C8_line_stacking (fun l => ((10 * l.length : ℤ), 20))
    1280 720 (List.replicate 35 'a') 0 30 (by decide)⟩

/-- C9: a unit with an empty timestamp stream yields zero cues (not an error),
and a unit with no cues still advances the frame cursor by exactly
`duration_to_frames(audio)` plus `duration_to_frames(pause)` when it is not
the last unit: the remaining units' spans and the final cursor are exactly
those of the tail, uniformly shifted by that advance. -/
theorem C9_empty_timestamps (text : List Char) (fps pause : ℚ) (u : VUnit)
    (rest : List VUnit) (h : u.subtitles = []) :
    make_subtitles text [] = [] ∧
    generate_frame_span_subtitles fps pause (u :: rest)
      = (shift_spans (duration_to_frames fps u.audio_duration +
            (if rest = [] then 0 else duration_to_frames fps pause))
          (generate_frame_span_subtitles fps pause rest).1,
        (duration_to_frames fps u.audio_duration +
            (if rest = [] then 0 else duration_to_frames fps pause))
          + (generate_frame_span_subtitles fps pause rest).2) := by
  refine ⟨rfl, ?_⟩
  simp only [generate_frame_span_subtitles, gfss_go, h, List.map_nil,
    List.nil_append]
  rw [show (0 : ℤ) + duration_to_frames fps u.audio_duration +
      (if rest = [] then 0 else duration_to_frames fps pause)
    = (duration_to_frames fps u.audio_duration +
        (if rest = [] then 0 else duration_to_frames fps pause)) + 0 by ring,
    gfss_go_shift fps pause _ rest 0]

/-- C9 witness: the empty-timestamp theorem at a concrete cue-less unit of
2 s audio followed by one unit with a cue, `fps = 30`, `pause = 0.25 s`. -/
theorem C9_empty_timestamps_witness :
    ((⟨[], 2⟩ : VUnit).subtitles = []) ∧
    (make_subtitles [] [] = [] ∧
      generate_frame_span_subtitles 30 (1/4)
          ((⟨[], 2⟩ : VUnit) :: [⟨[⟨['a'], 0, 10 ^ 7⟩], 3⟩])
        = (shift_spans (duration_to_frames 30 (VUnit.mk [] 2).audio_duration +
              (if ([(⟨[⟨['a'], 0, 10 ^ 7⟩], 3⟩ : VUnit)] : List VUnit) = [] then 0
                else duration_to_frames 30 (1/4)))
            (generate_frame_span_subtitles 30 (1/4)
              [⟨[⟨['a'], 0, 10 ^ 7⟩], 3⟩]).1,
          (duration_to_frames 30 (VUnit.mk [] 2).audio_duration +
              (if ([(⟨[⟨['a'], 0, 10 ^ 7⟩], 3⟩ : VUnit)] : List VUnit) = [] then 0
                else duration_to_frames 30 (1/4)))
            + (generate_frame_span_subtitles 30 (1/4)
                [⟨[⟨['a'], 0, 10 ^ 7⟩], 3⟩]).2)) :=
  ⟨rfl, C9_empty_timestamps [] 30 (1/4) ⟨[], 2⟩ [⟨[⟨['a'], 0, 10 ^ 7⟩], 3⟩] rfl⟩

/-- C10: on the empty cue text the layout returns an empty list of line
images together with `x = none` and `y = none` (no defined block position)
and zero width and height. -/
theorem C10_empty_text (measure : List Char → ℤ × ℤ) (width height y_offset : ℤ)
    (max_chars_per_line : ℕ) (_hm : 0 < max_chars_per_line) :
    cv_generate_subtitle_text_frame measure width height [] y_offset
        max_chars_per_line
      = ([], none, none, 0, 0) := rfl

/-- C10 witness: the empty-text layout theorem at a concrete measurement on a
1280×720 frame with the default 30 characters per line. -/
theorem C10_empty_text_witness :
    0 < 30 ∧
    cv_generate_subtitle_text_frame (fun l => ((10 * l.length : ℤ), 20))
        1280 720 [] 0 30
      = ([], none, none, 0, 0) :=
  ⟨by decide, C10_empty_text (fun l => ((10 * l.length : ℤ), 20)) 1280 720 0 30
    (by decide)⟩

end TextVid
